import Mathlib

/-!
Shallow embedding of the referral-service routes (src/routes/referrals.js):
the referrals and waiting-list tables, the five route handlers
(grant, checkTokens, verify, joinQueue, isReferred), and theorems checking
the specification's claims about them.

Strings are modelled as Lean `String`; SQL NULL columns as `Option String`;
the JSON bodies sent by the handlers as an explicit `JsonBody` type in
which, as in JavaScript serialization, object fields whose value is
`undefined` are dropped.
-/

/-- A row of the referrals table.  Columns per the source: sponsor_id,
token, user_id (nullable), status, plus the created_at / updated_at
timestamps that grant and verify touch. -/
structure Referral where
  sponsor_id : String
  token : String
  user_id : Option String
  status : String
  created_at : String
  updated_at : String
deriving Repr, DecidableEq

/-- A row of the users table; only the columns the left join in
checkTokens reads. -/
structure User where
  id : String
  username : String
deriving Repr, DecidableEq

/-- A row of the waiting_list table.  The user_id column exists in the
schema (nullable); the joinQueue handler never writes it, so it stays
NULL (none). -/
structure WaitingListEntry where
  email : String
  phone : String
  user_id : Option String
deriving Repr, DecidableEq

/-- The database state the routes operate on. -/
structure DB where
  referrals : List Referral
  waiting_list : List WaitingListEntry
  users : List User
deriving Repr, DecidableEq

def emptyDB : DB := { referrals := [], waiting_list := [], users := [] }

/-- An atomic JSON field value; every object field the handlers emit is a
boolean, a string, or null. -/
inductive JVal where
  | null : JVal
  | bool (b : Bool) : JVal
  | str (s : String) : JVal
deriving Repr, DecidableEq

/-- A JSON response body as sent by res.send: a bare boolean
(res.send(true)), a bare string (res.send('...')), or an object. -/
inductive JsonBody where
  | bool (b : Bool) : JsonBody
  | str (s : String) : JsonBody
  | obj (fields : List (String × JVal)) : JsonBody
deriving Repr, DecidableEq

/-- Build a JSON object from fields whose values may be undefined
(none); as in JavaScript JSON serialization, undefined fields are
dropped. -/
def jsonObj (fs : List (String × Option JVal)) : JsonBody :=
  JsonBody.obj (fs.filterMap (fun kv => kv.2.map (fun v => (kv.1, v))))

/-- An HTTP response: ok is a plain res.send (status 200), err is
res.status(code).send(body). -/
inductive HttpResponse where
  | ok (body : JsonBody) : HttpResponse
  | err (code : Nat) (body : JsonBody) : HttpResponse
deriving Repr, DecidableEq

def responseBody : HttpResponse → JsonBody
  | HttpResponse.ok b => b
  | HttpResponse.err _ b => b

/-- Whether an object body has a field with the given key; a bare
boolean or string body has no fields. -/
def hasField (b : JsonBody) (k : String) : Bool :=
  match b with
  | JsonBody.obj fs => fs.any (fun kv => kv.1 == k)
  | _ => false

/-- POST /grant and GET /grant (identical handlers up to where the
parameters are read from).  The uuidv4() result and the timestamp the
store assigns are inputs `token` and `now`.  Inserts
`(sponsor_id, token, status: available)` — user_id stays NULL and the
expiry parameter is never written — and echoes
`(token, status: available, expiry)`. -/
def grant (db : DB) (sponsor_id : String) (expiry : Option String)
    (token now : String) : DB × HttpResponse :=
  ({ db with referrals := db.referrals ++
      [{ sponsor_id := sponsor_id, token := token, user_id := none,
         status := "available", created_at := now, updated_at := now }] },
   HttpResponse.ok (jsonObj
     [("token", some (JVal.str token)),
      ("status", some (JVal.str "available")),
      ("expiry", expiry.map JVal.str)]))

/-- The username the left join 'users.id = referrals.user_id' attaches:
NULL when user_id is NULL or no user row matches. -/
def lookupUsername (users : List User) (uid : Option String) : Option String :=
  match uid with
  | none => none
  | some u => (users.find? (fun usr => usr.id == u)).map (fun usr => usr.username)

/-- A row of the checkTokens result set: token, created_at,
LEFT(created_at,10) as created, the joined username, status. -/
structure TokenRow where
  token : String
  created_at : String
  created : String
  username : Option String
  status : String
deriving Repr, DecidableEq

def toTokenRow (users : List User) (r : Referral) : TokenRow :=
  { token := r.token, created_at := r.created_at,
    created := r.created_at.take 10,
    username := lookupUsername users r.user_id,
    status := r.status }

/-- SQL LIKE with fuel for structural recursion; the wildcard percent
matches any sequence of characters and the wildcard underscore matches
exactly one.  With fuel above the pattern plus string length the fuel
never runs out. -/
def likeFuel : Nat → List Char → List Char → Bool
  | 0, _, _ => false
  | _ + 1, [], s => s.isEmpty
  | n + 1, p₀ :: ps, s =>
    if p₀ = '%' then
      likeFuel n ps s ||
        (match s with
         | [] => false
         | _ :: s' => likeFuel n (p₀ :: ps) s')
    else
      match s with
      | [] => false
      | c :: s' => (if p₀ = '_' then true else decide (p₀ = c)) && likeFuel n ps s'

/-- value LIKE pattern, as used by .where(col, 'like', v). -/
def sqlLike (pat v : String) : Bool :=
  likeFuel (pat.data.length + v.data.length + 1) pat.data v.data

/-- GET /checkTokens/:sponsor_id — the result rows.  Filters with LIKE
on the client-supplied sponsor_id; adds a LIKE filter on status only
when the status query parameter is truthy (nonempty) and not "all". -/
def checkTokensRows (db : DB) (sponsor_id : String) (status : Option String) :
    List TokenRow :=
  let base := db.referrals.filter (fun r => sqlLike sponsor_id r.sponsor_id)
  let rows :=
    match status with
    | some st =>
        if st ≠ "" ∧ st ≠ "all" then base.filter (fun (r : Referral) => sqlLike st r.status)
        else base
    | none => base
  rows.map (toTokenRow db.users)

/-- The checkTokens response is `(tokens: found)` wrapping the rows. -/
structure CheckTokensResult where
  tokens : List TokenRow
deriving Repr, DecidableEq

def checkTokens (db : DB) (sponsor_id : String) (status : Option String) :
    CheckTokensResult :=
  { tokens := checkTokensRows db sponsor_id status }

/-- The findAll of the verify handler: referrals with this token whose
user_id is NULL. -/
def verifyFind (db : DB) (token : String) : List Referral :=
  db.referrals.filter (fun r => decide (r.token = token ∧ r.user_id = none))

/-- The second half of the verify handler, taking the findAll result as
an argument (the handler is a separate read then write; splitting it here
lets interleavings of two concurrent requests be expressed).  On the
available branch, the update's where clause is on token alone, and the
response reads sponsor_id and updated_at off the result ARRAY `found`
(not off found[0]), which in JavaScript yields undefined, dropped by
JSON serialization. -/
def verifyStep2 (db : DB) (found : List Referral) (user_id token today : String) :
    DB × HttpResponse :=
  match found with
  | [] => (db, HttpResponse.err 500 (JsonBody.str "Invalid referral token"))
  | r :: _ =>
    if r.status = "available" then
      ({ db with referrals :=
          db.referrals.map (fun q =>
            if q.token = token then
              { q with status := "used", user_id := some user_id, updated_at := today }
            else q) },
       HttpResponse.ok (jsonObj
         [("verified", some (JVal.bool true)),
          ("sponsor_id", none),
          ("updated", none)]))
    else
      (db, HttpResponse.err 500 (JsonBody.obj
        [("verified", JVal.bool false),
         ("message", JVal.str ("Referral already " ++ r.status))]))

/-- GET /verify/:user_id/:token.  `today` is the date string
new Date().toISOString().substring(0,10) the handler stamps. -/
def verify (db : DB) (user_id token today : String) : DB × HttpResponse :=
  verifyStep2 db (verifyFind db token) user_id token today

/-- POST /joinQueue and GET /joinQueue (identical handlers).  The
request may carry a user_id, but the handler destructures only email and
phone, so the inserted row's user_id column stays NULL. -/
def joinQueue (db : DB) (email phone : String) (user_id : Option String) :
    DB × HttpResponse :=
  ({ db with waiting_list := db.waiting_list ++
      [{ email := email, phone := phone, user_id := none }] },
   HttpResponse.ok (JsonBody.obj
     [("success", JVal.bool true),
      ("message", JVal.str ("Added " ++ email ++ " to waiting list " ++ phone))]))

/-- GET /isReferred/:user_id — findOne on (user_id, status: used), then
res.send(true) or res.send(false): the body is a bare boolean. -/
def isReferred (db : DB) (user_id : String) : HttpResponse :=
  match db.referrals.find? (fun r =>
      decide (r.user_id = some user_id ∧ r.status = "used")) with
  | some _ => HttpResponse.ok (JsonBody.bool true)
  | none => HttpResponse.ok (JsonBody.bool false)

example :
    (verify { emptyDB with referrals :=
        [{ sponsor_id := "7", token := "T", user_id := none,
           status := "available", created_at := "d", updated_at := "d" }] }
      "42" "T" "e").2
      = HttpResponse.ok (JsonBody.obj [("verified", JVal.bool true)]) := by decide

example : sqlLike "%" "8" = true := by decide
example : sqlLike "7" "8" = false := by decide
example : sqlLike "_" "8" = true := by decide
example : sqlLike "a%c" "abbc" = true := by decide

/-! Demo database states used by concrete evaluations and witnesses. -/

def r₀ : Referral :=
  { sponsor_id := "7", token := "T", user_id := none, status := "available",
    created_at := "2021-09-01", updated_at := "2021-09-01" }

def availDB : DB := { referrals := [r₀], waiting_list := [], users := [] }

def usedDB : DB :=
  { referrals :=
      [{ sponsor_id := "7", token := "T", user_id := some "42", status := "used",
         created_at := "2021-09-01", updated_at := "2021-09-02" }],
    waiting_list := [], users := [] }

def raceDB : DB :=
  { referrals :=
      [{ sponsor_id := "7", token := "T", user_id := none, status := "available",
         created_at := "2021-01-01", updated_at := "2021-01-01" }],
    waiting_list := [], users := [] }

def sponsorsDB : DB :=
  { referrals :=
      [{ sponsor_id := "7", token := "t7", user_id := none, status := "available",
         created_at := "2021-08-01 10:00:00", updated_at := "2021-08-01 10:00:00" },
       { sponsor_id := "8", token := "t8", user_id := some "42", status := "used",
         created_at := "2021-08-02 11:00:00", updated_at := "2021-08-03" }],
    waiting_list := [],
    users := [{ id := "42", username := "alice" }] }

def likeDB : DB :=
  { referrals :=
      [{ sponsor_id := "7", token := "u7", user_id := none, status := "available",
         created_at := "2021-08-01 10:00:00", updated_at := "2021-08-01 10:00:00" },
       { sponsor_id := "8", token := "u8", user_id := none, status := "available",
         created_at := "2021-08-02 10:00:00", updated_at := "2021-08-02 10:00:00" }],
    waiting_list := [], users := [] }

/-- Claim C5: grant inserts exactly one referral row
(sponsor_id, token, status available, user_id NULL), touches no other
table, the response echoes the request's expiry (dropped when absent,
exactly as submitted when present), and the inserted state is
independent of the expiry value, i.e. expiry is not persisted. -/
theorem grant_creates_available_row (db : DB) (sp : String)
    (expiry : Option String) (tok now : String) :
    (grant db sp expiry tok now).1.referrals
        = db.referrals ++ [{ sponsor_id := sp, token := tok, user_id := none,
                             status := "available", created_at := now, updated_at := now }]
  ∧ (grant db sp expiry tok now).1.waiting_list = db.waiting_list
  ∧ (grant db sp expiry tok now).1.users = db.users
  ∧ (∀ e : String, (grant db sp (some e) tok now).2
        = HttpResponse.ok (JsonBody.obj
            [("token", JVal.str tok), ("status", JVal.str "available"),
             ("expiry", JVal.str e)]))
  ∧ (grant db sp none tok now).2
        = HttpResponse.ok (JsonBody.obj
            [("token", JVal.str tok), ("status", JVal.str "available")])
  ∧ (∀ e₂ : Option String, (grant db sp e₂ tok now).1 = (grant db sp expiry tok now).1) :=
  ⟨rfl, rfl, rfl, fun _ => rfl, rfl, fun _ => rfl⟩

/-- Claim C7 (amended): joinQueue appends exactly one waiting-list row
recording email and phone, with the user_id column left NULL whatever
user_id the request carried; no other table changes; the response is
success true with a message echoing email and phone. -/
theorem joinQueue_appends_row (db : DB) (email phone : String) (uid : Option String) :
    (joinQueue db email phone uid).1.waiting_list
        = db.waiting_list ++ [{ email := email, phone := phone, user_id := none }]
  ∧ (joinQueue db email phone uid).1.referrals = db.referrals
  ∧ (joinQueue db email phone uid).1.users = db.users
  ∧ (joinQueue db email phone uid).2
        = HttpResponse.ok (JsonBody.obj
            [("success", JVal.bool true),
             ("message", JVal.str ("Added " ++ email ++ " to waiting list " ++ phone))])
  ∧ (∀ u₂ : Option String, joinQueue db email phone u₂ = joinQueue db email phone uid) :=
  ⟨rfl, rfl, rfl, rfl, fun _ => rfl⟩

/-- Claim C7, counterexample: a joinQueue call that supplies
user_id = some "5" still inserts a row whose user_id is NULL, so the
row does not record the optional user_id. -/
theorem joinQueue_ignores_user_id :
    ((joinQueue emptyDB "a@b.c" "555-0100" (some "5")).1.waiting_list
        = [{ email := "a@b.c", phone := "555-0100", user_id := none }])
  ∧ some "5" ≠ (none : Option String) := by
  exact ⟨rfl, by decide⟩

/-- Claim C2, counterexample: on a successful redemption the response
body is the object with the single field verified; it has no sponsor_id
and no updated field (the handler reads them off the result array,
giving undefined, which JSON serialization drops). -/
theorem verify_response_lacks_sponsor_id :
    ((verify availDB "42" "T" "2021-09-02").2
        = HttpResponse.ok (JsonBody.obj [("verified", JVal.bool true)]))
  ∧ hasField (responseBody (verify availDB "42" "T" "2021-09-02").2) "sponsor_id" = false
  ∧ hasField (responseBody (verify availDB "42" "T" "2021-09-02").2) "updated" = false := by
  decide

/-- Claim C1, counterexample: after token T of availDB is redeemed by
user 42, a second Verify by user 99 responds with the error body
"Invalid referral token" — not with the "Referral already used"
message the claim states — and leaves the state unchanged. -/
theorem second_verify_gives_invalid_token :
    ((verify (verify availDB "42" "T" "2021-09-02").1 "99" "T" "2021-09-03").2
        = HttpResponse.err 500 (JsonBody.str "Invalid referral token"))
  ∧ ((verify (verify availDB "42" "T" "2021-09-02").1 "99" "T" "2021-09-03").2
        ≠ HttpResponse.err 500 (JsonBody.obj
            [("verified", JVal.bool false),
             ("message", JVal.str "Referral already used")]))
  ∧ ((verify (verify availDB "42" "T" "2021-09-02").1 "99" "T" "2021-09-03").1
        = (verify availDB "42" "T" "2021-09-02").1) := by
  decide

/-- Claim C6, counterexample: for a user with a used referral the
isReferred response body is the bare boolean true; it is not an object
and has no referred field, contradicting the claimed response shape. -/
theorem isReferred_not_an_object :
    isReferred usedDB "42" = HttpResponse.ok (JsonBody.bool true)
  ∧ hasField (responseBody (isReferred usedDB "42")) "referred" = false
  ∧ responseBody (isReferred usedDB "42")
      ≠ JsonBody.obj [("referred", JVal.bool true)] := by
  decide

/-- Claim C3: with one available referral for token T, two Verify
requests (users 42 and 99) whose findAll reads both happen before
either update — the interleaving the separate read and write
statements permit — BOTH respond verified true, and the second update
overwrites user_id with 99.  A single conditional update guarded by
status available and user_id NULL would have failed the second
request. -/
theorem verify_race_both_succeed :
    ((verifyStep2 raceDB (verifyFind raceDB "T") "42" "T" "2021-01-02").2
        = HttpResponse.ok (JsonBody.obj [("verified", JVal.bool true)]))
  ∧ ((verifyStep2 ((verifyStep2 raceDB (verifyFind raceDB "T") "42" "T" "2021-01-02").1)
        (verifyFind raceDB "T") "99" "T" "2021-01-02").2
        = HttpResponse.ok (JsonBody.obj [("verified", JVal.bool true)]))
  ∧ (((verifyStep2 ((verifyStep2 raceDB (verifyFind raceDB "T") "42" "T" "2021-01-02").1)
        (verifyFind raceDB "T") "99" "T" "2021-01-02").1.referrals.map Referral.user_id)
        = [some "99"]) := by
  decide

/-- Claim C10: checkTokens filters with SQL LIKE, so the wildcard
patterns percent and underscore as sponsor_id return the referral rows
of sponsors 7 and 8 — sponsors different from the supplied value. -/
theorem checkTokens_like_wildcard_leaks :
    ((checkTokensRows likeDB "%" none).map TokenRow.token = ["u7", "u8"])
  ∧ ((checkTokensRows likeDB "_" none).map TokenRow.token = ["u7", "u8"])
  ∧ (likeDB.referrals.map Referral.sponsor_id = ["7", "8"])
  ∧ ("7" : String) ≠ "%" ∧ ("8" : String) ≠ "%"
  ∧ ("7" : String) ≠ "_" ∧ ("8" : String) ≠ "_" := by
  decide

/-- Claim C8, counterexample: with sponsor_id the percent wildcard the
result contains the tokens of sponsors 7 and 8, which are not the
supplied sponsor; and with the empty-string status filter (falsy in
JavaScript, so no filter is applied) the row t7 is returned although no
referral row has the empty status. -/
theorem checkTokens_wildcard_and_empty_status :
    ((checkTokensRows sponsorsDB "%" none).map TokenRow.token = ["t7", "t8"])
  ∧ (sponsorsDB.referrals.map Referral.sponsor_id = ["7", "8"])
  ∧ ("7" : String) ≠ "%" ∧ ("8" : String) ≠ "%"
  ∧ ((checkTokensRows sponsorsDB "7" (some "")).map TokenRow.token = ["t7"])
  ∧ ((sponsorsDB.referrals.filter (fun r => decide (r.status = ""))).map Referral.token
        = []) := by
  decide

/-! LIKE on wildcard-free patterns is plain equality. -/

/-- True when the string contains neither LIKE wildcard. -/
def noWildcards (s : String) : Bool :=
  s.data.all (fun c => decide (c ≠ '%' ∧ c ≠ '_'))

/-- noWildcards lifted to an optional query parameter. -/
def noWildOpt : Option String → Bool
  | none => true
  | some s => noWildcards s

lemma likeFuel_noWild :
    ∀ (p : List Char), (∀ c ∈ p, c ≠ '%' ∧ c ≠ '_') →
      ∀ (s : List Char) (fuel : Nat), p.length < fuel →
        (likeFuel fuel p s = true ↔ p = s) := by
  intro p
  induction p with
  | nil =>
    intro _ s fuel hf
    cases fuel with
    | zero => omega
    | succ n =>
      simp only [likeFuel, List.isEmpty_iff]
      exact eq_comm
  | cons p₀ ps ih =>
    intro hw s fuel hf
    obtain ⟨hp1, hp2⟩ := hw p₀ (List.mem_cons_self p₀ ps)
    cases fuel with
    | zero => omega
    | succ n =>
      cases s with
      | nil => simp [likeFuel, hp1]
      | cons c s' =>
        have hw' : ∀ c ∈ ps, c ≠ '%' ∧ c ≠ '_' :=
          fun c hc => hw c (List.mem_cons_of_mem _ hc)
        have hn : ps.length < n := by
          simp only [List.length_cons] at hf
          omega
        simp only [likeFuel, hp1, hp2, if_false, Bool.and_eq_true, decide_eq_true_eq,
          List.cons.injEq]
        exact and_congr_right (fun _ => ih hw' s' n hn)

lemma sqlLike_noWild (pat v : String) (h : noWildcards pat = true) :
    sqlLike pat v = true ↔ pat = v := by
  have hw : ∀ c ∈ pat.data, c ≠ '%' ∧ c ≠ '_' := by
    intro c hc
    have := List.all_eq_true.mp h c hc
    simpa using this
  have hlf := likeFuel_noWild pat.data hw v.data
      (pat.data.length + v.data.length + 1) (by omega)
  unfold sqlLike
  rw [hlf]
  constructor
  · intro hd
    cases pat
    cases v
    exact congrArg String.mk hd
  · intro he
    rw [he]

lemma sqlLike_eq_decide (pat v : String) (h : noWildcards pat = true) :
    sqlLike pat v = decide (v = pat) := by
  by_cases hv : v = pat
  · subst hv
    simp [(sqlLike_noWild v v h).mpr rfl]
  · have hne : sqlLike pat v ≠ true := by
      intro hh
      exact hv ((sqlLike_noWild pat v h).mp hh).symm
    simp only [Bool.not_eq_true] at hne
    simp [hne, hv]

/-- The specification's reading of checkTokens: plain equality on the
sponsor and on the status filter (status "all", the empty string, or an
omitted status meaning no filter). -/
def checkTokensSpec (db : DB) (sp : String) (status : Option String) :
    List TokenRow :=
  let base := db.referrals.filter (fun r => decide (r.sponsor_id = sp))
  let rows :=
    match status with
    | some st =>
        if st ≠ "" ∧ st ≠ "all" then base.filter (fun (r : Referral) => decide (r.status = st))
        else base
    | none => base
  rows.map (toTokenRow db.users)

/-- Claim C8 (amended): for sponsor_id and status values free of the
LIKE wildcards percent and underscore, checkTokens returns exactly the
referral rows whose sponsor_id equals the supplied value — all of them
when status is "all", the empty string, or omitted, and only those
whose status equals the given value otherwise — each row carrying
token, the creation date truncated to 10 characters, the joined
username, and status. -/
theorem checkTokens_equality_semantics (db : DB) (sp : String)
    (status : Option String)
    (hsp : noWildcards sp = true) (hst : noWildOpt status = true) :
    checkTokensRows db sp status = checkTokensSpec db sp status := by
  have hbase : db.referrals.filter (fun r => sqlLike sp r.sponsor_id)
      = db.referrals.filter (fun r => decide (r.sponsor_id = sp)) :=
    List.filter_congr (fun r _ => sqlLike_eq_decide sp r.sponsor_id hsp)
  unfold checkTokensRows checkTokensSpec
  cases status with
  | none => simp only [hbase]
  | some st =>
    have hstw : noWildcards st = true := hst
    by_cases hc : st ≠ "" ∧ st ≠ "all"
    · simp only [hbase, if_pos hc]
      congr 1
      exact List.filter_congr (fun r _ => sqlLike_eq_decide st r.status hstw)
    · simp only [hbase, if_neg hc]

/-- Witness for C8 at a concrete store: sponsor 7 with the used filter. -/
theorem checkTokens_equality_semantics_witness :
    noWildcards "7" = true ∧ noWildOpt (some "used") = true ∧
    checkTokensRows sponsorsDB "7" (some "used")
      = checkTokensSpec sponsorsDB "7" (some "used") :=
  ⟨by decide, by decide,
    checkTokens_equality_semantics sponsorsDB "7" (some "used") (by decide) (by decide)⟩

/-- Claim C6 (amended): the isReferred response body is a bare boolean
(not an object), and it is true exactly when some referral row has the
given user_id and status used. -/
theorem isReferred_bare_boolean (db : DB) (uid : String) :
    (isReferred db uid = HttpResponse.ok (JsonBody.bool true) ∨
     isReferred db uid = HttpResponse.ok (JsonBody.bool false))
  ∧ (isReferred db uid = HttpResponse.ok (JsonBody.bool true) ↔
      ∃ r ∈ db.referrals, r.user_id = some uid ∧ r.status = "used") := by
  constructor
  · unfold isReferred
    cases hfind : db.referrals.find?
        (fun r => decide (r.user_id = some uid ∧ r.status = "used")) with
    | none => right; rfl
    | some q => left; rfl
  · constructor
    · intro htrue
      unfold isReferred at htrue
      cases hfind : db.referrals.find?
          (fun r => decide (r.user_id = some uid ∧ r.status = "used")) with
      | none =>
        rw [hfind] at htrue
        simp at htrue
      | some q =>
        refine ⟨q, List.mem_of_find?_eq_some hfind, ?_⟩
        have := List.find?_some hfind
        simpa using this
    · rintro ⟨r, hr, hru, hrs⟩
      unfold isReferred
      cases hfind : db.referrals.find?
          (fun r => decide (r.user_id = some uid ∧ r.status = "used")) with
      | none =>
        have := List.find?_eq_none.mp hfind r hr
        simp [hru, hrs] at this
      | some q => rfl

/-! Helper lemmas about verify under token uniqueness. -/

/-- Tokens are pairwise distinct across the referrals table (the schema
declares the token column unique; uuidv4 generation upholds it). -/
def tokenUnique (db : DB) : Prop := (db.referrals.map Referral.token).Nodup

instance (db : DB) : Decidable (tokenUnique db) := by
  unfold tokenUnique
  infer_instance

lemma filter_eq_singleton {α : Type} (p : α → Bool) (l : List α) (r : α)
    (hd : l.Nodup) (hr : r ∈ l) (hp : p r = true)
    (huniq : ∀ q ∈ l, p q = true → q = r) : l.filter p = [r] := by
  induction l with
  | nil => cases hr
  | cons a l ih =>
    obtain ⟨ha, hd'⟩ := List.nodup_cons.mp hd
    rcases List.mem_cons.mp hr with h | h
    · subst h
      rw [List.filter_cons_of_pos hp]
      have hnil : l.filter p = [] := by
        apply List.filter_eq_nil_iff.mpr
        intro q hq hpq
        have hqr : q = r := huniq q (List.mem_cons_of_mem _ hq) hpq
        subst hqr
        exact absurd hq ha
      rw [hnil]
    · have hpa : ¬ p a = true := by
        intro hpa'
        have har : a = r := huniq a (List.mem_cons_self a l) hpa'
        subst har
        exact ha h
      rw [List.filter_cons_of_neg hpa]
      exact ih hd' h (fun q hq hpq => huniq q (List.mem_cons_of_mem _ hq) hpq)

lemma verifyFind_eq_singleton (db : DB) (tok : String) (r : Referral)
    (hu : tokenUnique db) (hr : r ∈ db.referrals) (ht : r.token = tok)
    (hn : r.user_id = none) :
    verifyFind db tok = [r] := by
  unfold verifyFind
  refine filter_eq_singleton _ _ _ (List.Nodup.of_map Referral.token hu) hr ?_ ?_
  · simp [ht, hn]
  · intro q hq hpq
    simp only [decide_eq_true_eq] at hpq
    exact List.inj_on_of_nodup_map hu hq hr (by rw [hpq.1, ht])

lemma verify_success_eq (db : DB) (uid tok today : String) (r : Referral)
    (hu : tokenUnique db) (hr : r ∈ db.referrals) (ht : r.token = tok)
    (hn : r.user_id = none) (hst : r.status = "available") :
    verify db uid tok today =
      ({ db with referrals := db.referrals.map (fun q =>
            if q.token = tok then
              { q with status := "used", user_id := some uid, updated_at := today }
            else q) },
       HttpResponse.ok (JsonBody.obj [("verified", JVal.bool true)])) := by
  unfold verify
  rw [verifyFind_eq_singleton db tok r hu hr ht hn]
  simp only [verifyStep2]
  rw [if_pos hst]
  rfl

/-- Claim C2 (amended): redeeming an available, unredeemed referral row
with the given token updates that row to status used, user_id the
redeeming user, updated_at today's date, leaves every other row and the
other tables unchanged, and responds 200 with the body containing only
verified true (no sponsor_id and no updated field are sent: the handler
reads them off the result array, which yields undefined, and JSON
serialization drops them). -/
theorem verify_success (db : DB) (uid tok today : String) (r : Referral)
    (hu : tokenUnique db) (hr : r ∈ db.referrals) (ht : r.token = tok)
    (hn : r.user_id = none) (hst : r.status = "available") :
    ((verify db uid tok today).2
        = HttpResponse.ok (JsonBody.obj [("verified", JVal.bool true)]))
  ∧ ({ r with status := "used", user_id := some uid, updated_at := today }
        ∈ (verify db uid tok today).1.referrals)
  ∧ (∀ q ∈ db.referrals, q.token ≠ tok → q ∈ (verify db uid tok today).1.referrals)
  ∧ ((verify db uid tok today).1.referrals.length = db.referrals.length)
  ∧ ((verify db uid tok today).1.waiting_list = db.waiting_list) := by
  have he := verify_success_eq db uid tok today r hu hr ht hn hst
  rw [he]
  refine ⟨rfl, ?_, ?_, by simp, rfl⟩
  · exact List.mem_map.mpr ⟨r, hr, by rw [if_pos ht]⟩
  · intro q hq hqt
    exact List.mem_map.mpr ⟨q, hq, by rw [if_neg hqt]⟩

/-- Witness for C2: redeeming token T of availDB as user 42. -/
theorem verify_success_witness :
    tokenUnique availDB ∧
    ((verify availDB "42" "T" "2021-09-02").2
        = HttpResponse.ok (JsonBody.obj [("verified", JVal.bool true)])) ∧
    ({ sponsor_id := "7", token := "T", user_id := some "42", status := "used",
       created_at := "2021-09-01", updated_at := "2021-09-02" } : Referral)
        ∈ (verify availDB "42" "T" "2021-09-02").1.referrals := by
  have h := verify_success availDB "42" "T" "2021-09-02" r₀
      (by decide) (by decide) rfl rfl rfl
  exact ⟨by decide, h.1, h.2.1⟩

/-- Claim C9: when no referral row has the given token with user_id
NULL (in particular for a nonexistent token), verify leaves the store
untouched and responds 500 with the body "Invalid referral token". -/
theorem verify_invalid_token (db : DB) (uid tok today : String)
    (h : ∀ r ∈ db.referrals, ¬(r.token = tok ∧ r.user_id = none)) :
    verify db uid tok today
      = (db, HttpResponse.err 500 (JsonBody.str "Invalid referral token")) := by
  unfold verify
  have hnil : verifyFind db tok = [] := by
    unfold verifyFind
    apply List.filter_eq_nil_iff.mpr
    intro r hr
    simpa using h r hr
  rw [hnil]
  rfl

/-- Witness for C9: a token absent from availDB. -/
theorem verify_invalid_token_witness :
    (∀ r ∈ availDB.referrals, ¬(r.token = "NOPE" ∧ r.user_id = none)) ∧
    verify availDB "7" "NOPE" "2021-09-02"
      = (availDB, HttpResponse.err 500 (JsonBody.str "Invalid referral token")) :=
  ⟨by decide, verify_invalid_token availDB "7" "NOPE" "2021-09-02" (by decide)⟩

/-- Claim C1 (amended): once a referral has been successfully redeemed,
a second verify call for the same token — by the same or a different
user — changes nothing and fails, but with the "Invalid referral token"
error: the redeemed row's user_id is no longer NULL, so the lookup
misses it and the already-used message (reserved for rows with user_id
NULL and a non-available status) is never reached. -/
theorem verify_after_redeem (db : DB) (uid1 uid2 tok t1 t2 : String) (r : Referral)
    (hu : tokenUnique db) (hr : r ∈ db.referrals) (ht : r.token = tok)
    (hn : r.user_id = none) (hst : r.status = "available") :
    ((verify (verify db uid1 tok t1).1 uid2 tok t2).1 = (verify db uid1 tok t1).1)
  ∧ ((verify (verify db uid1 tok t1).1 uid2 tok t2).2
        = HttpResponse.err 500 (JsonBody.str "Invalid referral token")) := by
  have he := verify_success_eq db uid1 tok t1 r hu hr ht hn hst
  have hfind : verifyFind (verify db uid1 tok t1).1 tok = [] := by
    rw [he]
    unfold verifyFind
    apply List.filter_eq_nil_iff.mpr
    intro q' hq'
    simp only [decide_eq_true_eq, not_and]
    intro hq't
    obtain ⟨q, hq, hfq⟩ := List.mem_map.mp hq'
    by_cases hqt : q.token = tok
    · have hqr : q = r := List.inj_on_of_nodup_map hu hq hr (by rw [hqt, ht])
      subst hqr
      rw [if_pos hqt] at hfq
      rw [← hfq]
      simp
    · rw [if_neg hqt] at hfq
      rw [← hfq] at hq't
      exact absurd hq't hqt
  have hsecond : verify (verify db uid1 tok t1).1 uid2 tok t2
      = ((verify db uid1 tok t1).1,
         HttpResponse.err 500 (JsonBody.str "Invalid referral token")) := by
    show verifyStep2 (verify db uid1 tok t1).1
        (verifyFind (verify db uid1 tok t1).1 tok) uid2 tok t2
      = ((verify db uid1 tok t1).1,
         HttpResponse.err 500 (JsonBody.str "Invalid referral token"))
    rw [hfind]
    rfl
  constructor
  · rw [hsecond]
  · rw [hsecond]

/-- Witness for C1: token T of availDB redeemed by 42, then retried by 99. -/
theorem verify_after_redeem_witness :
    tokenUnique availDB ∧
    ((verify (verify availDB "42" "T" "2021-09-02").1 "99" "T" "2021-09-03").2
        = HttpResponse.err 500 (JsonBody.str "Invalid referral token")) := by
  have h := verify_after_redeem availDB "42" "99" "T" "2021-09-02" "2021-09-03" r₀
      (by decide) (by decide) rfl rfl rfl
  exact ⟨by decide, h.2⟩

/-! The service as a transition system: one Op per route call, applied to
the store.  checkTokens and isReferred are reads and leave the store
unchanged; grant and joinQueue insert; verify is the only operation that
mutates referral rows. -/

inductive Op where
  | grant (sponsor_id : String) (expiry : Option String) (token now : String) : Op
  | verify (user_id token today : String) : Op
  | joinQueue (email phone : String) (user_id : Option String) : Op
  | checkTokens (sponsor_id : String) (status : Option String) : Op
  | isReferred (user_id : String) : Op
deriving Repr, DecidableEq

def applyOp (db : DB) : Op → DB
  | Op.grant sp e t n => (grant db sp e t n).1
  | Op.verify u t d => (verify db u t d).1
  | Op.joinQueue e p u => (joinQueue db e p u).1
  | Op.checkTokens _ _ => db
  | Op.isReferred _ => db

def run (db : DB) (ops : List Op) : DB := ops.foldl applyOp db

/-- The token a grant is about to insert does not occur yet (uuidv4
freshness, upholding the schema's unique token column). -/
def tokenFresh (db : DB) (t : String) : Bool :=
  db.referrals.all (fun r => decide (r.token ≠ t))

/-- Every grant of the trace inserts a fresh token. -/
def freshTokens (db : DB) : List Op → Bool
  | [] => true
  | op :: ops =>
    (match op with
     | Op.grant _ _ t _ => tokenFresh db t
     | _ => true) && freshTokens (applyOp db op) ops

/-- The two legal referral states: available and unbound, or used and
bound to a redeeming user. -/
def refOK (r : Referral) : Prop :=
  (r.status = "available" ∧ r.user_id = none) ∨
  (r.status = "used" ∧ r.user_id ≠ none)

def refInv (db : DB) : Prop := ∀ r ∈ db.referrals, refOK r

lemma verify_state_nil (db : DB) (uid tok today : String)
    (h : verifyFind db tok = []) : (verify db uid tok today).1 = db := by
  unfold verify
  rw [h]
  rfl

lemma verify_state_cons_avail (db : DB) (uid tok today : String)
    (q : Referral) (rest : List Referral)
    (h : verifyFind db tok = q :: rest) (hqa : q.status = "available") :
    (verify db uid tok today).1.referrals
      = db.referrals.map (fun w =>
          if w.token = tok then
            { w with status := "used", user_id := some uid, updated_at := today }
          else w) := by
  unfold verify
  rw [h]
  simp only [verifyStep2]
  rw [if_pos hqa]

lemma verify_state_cons_notavail (db : DB) (uid tok today : String)
    (q : Referral) (rest : List Referral)
    (h : verifyFind db tok = q :: rest) (hqa : ¬ q.status = "available") :
    (verify db uid tok today).1 = db := by
  unfold verify
  rw [h]
  simp only [verifyStep2]
  rw [if_neg hqa]

lemma applyOp_inv (db : DB) (op : Op) (hinv : refInv db) (hu : tokenUnique db)
    (hfresh : ∀ sp e t n, op = Op.grant sp e t n → tokenFresh db t = true) :
    refInv (applyOp db op) ∧ tokenUnique (applyOp db op) := by
  cases op with
  | grant sp e t n =>
    have hftok : tokenFresh db t = true := hfresh sp e t n rfl
    constructor
    · intro r hrm
      rcases List.mem_append.mp hrm with hl | hr2
      · exact hinv r hl
      · simp only [List.mem_singleton] at hr2
        subst hr2
        exact Or.inl ⟨rfl, rfl⟩
    · show ((db.referrals ++ [_]).map Referral.token).Nodup
      rw [List.map_append, List.nodup_append]
      refine ⟨hu, List.nodup_singleton _, ?_⟩
      intro x hx hx2
      simp only [List.map_cons, List.map_nil, List.mem_singleton] at hx2
      subst hx2
      obtain ⟨q, hq, hqt⟩ := List.mem_map.mp hx
      have hq' := List.all_eq_true.mp hftok q hq
      simp only [decide_eq_true_eq] at hq'
      exact hq' hqt
  | joinQueue e p u => exact ⟨hinv, hu⟩
  | checkTokens sp st => exact ⟨hinv, hu⟩
  | isReferred u => exact ⟨hinv, hu⟩
  | verify u t d =>
    show refInv (verify db u t d).1 ∧ tokenUnique (verify db u t d).1
    cases hfind : verifyFind db t with
    | nil =>
      rw [verify_state_nil db u t d hfind]
      exact ⟨hinv, hu⟩
    | cons q rest =>
      by_cases hqa : q.status = "available"
      · have hmap := verify_state_cons_avail db u t d q rest hfind hqa
        constructor
        · intro r' hr'
          rw [hmap] at hr'
          obtain ⟨q', hq', hfq⟩ := List.mem_map.mp hr'
          subst hfq
          by_cases hq't : q'.token = t
          · rw [if_pos hq't]
            exact Or.inr ⟨rfl, by simp⟩
          · rw [if_neg hq't]
            exact hinv q' hq'
        · show ((verify db u t d).1.referrals.map Referral.token).Nodup
          rw [hmap, List.map_map]
          have : db.referrals.map (Referral.token ∘ fun w =>
              if w.token = t then
                { w with status := "used", user_id := some u, updated_at := d }
              else w) = db.referrals.map Referral.token := by
            apply List.map_congr_left
            intro a _
            by_cases hat : a.token = t
            · simp only [Function.comp_apply, if_pos hat]
            · simp only [Function.comp_apply, if_neg hat]
          rw [this]
          exact hu
      · rw [verify_state_cons_notavail db u t d q rest hfind hqa]
        exact ⟨hinv, hu⟩

lemma applyOp_keeps_used (db : DB) (op : Op) (hu : tokenUnique db) :
    ∀ r ∈ db.referrals, r.user_id ≠ none → r ∈ (applyOp db op).referrals := by
  intro r hr hrn
  cases op with
  | grant sp e t n => exact List.mem_append_left _ hr
  | joinQueue e p u => exact hr
  | checkTokens sp st => exact hr
  | isReferred u => exact hr
  | verify u t d =>
    show r ∈ (verify db u t d).1.referrals
    cases hfind : verifyFind db t with
    | nil =>
      rw [verify_state_nil db u t d hfind]
      exact hr
    | cons q rest =>
      have hqmem : q ∈ verifyFind db t := hfind ▸ List.mem_cons_self q rest
      have hqf := List.mem_filter.mp hqmem
      have hq2 : q.token = t ∧ q.user_id = none := by
        have := hqf.2
        simpa using this
      by_cases hqa : q.status = "available"
      · rw [verify_state_cons_avail db u t d q rest hfind hqa]
        have hrt : ¬ r.token = t := by
          intro hrt
          have hrq : r = q :=
            List.inj_on_of_nodup_map hu hr hqf.1 (by rw [hrt, hq2.1])
          rw [hrq] at hrn
          exact hrn hq2.2
        exact List.mem_map.mpr ⟨r, hr, by rw [if_neg hrt]⟩
      · rw [verify_state_cons_notavail db u t d q rest hfind hqa]
        exact hr

lemma run_preserves (ops : List Op) :
    ∀ db : DB, refInv db → tokenUnique db → freshTokens db ops = true →
      refInv (run db ops) ∧ tokenUnique (run db ops) ∧
        (∀ r ∈ db.referrals, r.user_id ≠ none → r ∈ (run db ops).referrals) := by
  induction ops with
  | nil =>
    intro db h1 h2 _
    exact ⟨h1, h2, fun r hr _ => hr⟩
  | cons op ops ih =>
    intro db h1 h2 hf
    simp only [freshTokens, Bool.and_eq_true] at hf
    have hf2 := hf
    have hfr : ∀ sp e t n, op = Op.grant sp e t n → tokenFresh db t = true := by
      intro sp e t n hop
      subst hop
      exact hf2.1
    obtain ⟨j1, j2⟩ := applyOp_inv db op h1 h2 hfr
    obtain ⟨k1, k2, k3⟩ := ih (applyOp db op) j1 j2 hf2.2
    refine ⟨k1, k2, ?_⟩
    intro r hr hrn
    exact k3 r (applyOp_keeps_used db op h2 r hr hrn) hrn

lemma freshTokens_append (l₁ l₂ : List Op) :
    ∀ db : DB, freshTokens db (l₁ ++ l₂)
      = (freshTokens db l₁ && freshTokens (run db l₁) l₂) := by
  induction l₁ with
  | nil =>
    intro db
    simp [freshTokens, run]
  | cons op l₁ ih =>
    intro db
    have hrun : run db (op :: l₁) = run (applyOp db op) l₁ := rfl
    simp only [List.cons_append, freshTokens, List.append_eq, hrun,
      ih (applyOp db op), Bool.and_assoc]

/-- Claim C4: starting from the empty store, along any trace of
operations whose grants insert fresh tokens, (i) every reachable
referral row is either (available, user_id NULL) or (used, user_id
non-NULL); (ii) once a row is bound (user_id non-NULL, i.e. redeemed by
Verify) it survives every further operation unchanged — at most one
transition, never deleted; (iii) every row created by a grant starts
(available, user_id NULL); and (iv) joinQueue, checkTokens and
isReferred never touch the referrals table, so the transition is
triggered only by Verify. -/
theorem referral_state_machine (pre post : List Op)
    (h : freshTokens emptyDB (pre ++ post) = true) :
    (∀ r ∈ (run emptyDB (pre ++ post)).referrals, refOK r)
  ∧ (∀ r ∈ (run emptyDB pre).referrals, r.user_id ≠ none →
        r ∈ (run emptyDB (pre ++ post)).referrals)
  ∧ (∀ (db : DB) (sp : String) (e : Option String) (t n : String),
        (applyOp db (Op.grant sp e t n)).referrals
          = db.referrals ++ [{ sponsor_id := sp, token := t, user_id := none,
                               status := "available", created_at := n, updated_at := n }])
  ∧ (∀ (db : DB) (e p : String) (u : Option String),
        (applyOp db (Op.joinQueue e p u)).referrals = db.referrals)
  ∧ (∀ (db : DB) (sp : String) (st : Option String),
        applyOp db (Op.checkTokens sp st) = db)
  ∧ (∀ (db : DB) (u : String), applyOp db (Op.isReferred u) = db) := by
  rw [freshTokens_append pre post emptyDB, Bool.and_eq_true] at h
  obtain ⟨h1, h2⟩ := h
  have hempty1 : refInv emptyDB := fun r hr => absurd hr (List.not_mem_nil r)
  have hempty2 : tokenUnique emptyDB := List.nodup_nil
  obtain ⟨m1, m2, _⟩ := run_preserves pre emptyDB hempty1 hempty2 h1
  obtain ⟨e1, _, e3⟩ := run_preserves post (run emptyDB pre) m1 m2 h2
  have hra : run emptyDB (pre ++ post) = run (run emptyDB pre) post := by
    simp [run]
  refine ⟨?_, ?_, fun db sp e t n => rfl, fun db e p u => rfl,
    fun db sp st => rfl, fun db u => rfl⟩
  · rw [hra]
    exact e1
  · intro r hr hrn
    rw [hra]
    exact e3 r hr hrn

def demoOpsPre : List Op :=
  [Op.grant "7" none "T" "2021-01-01", Op.verify "42" "T" "2021-01-02"]

def demoOpsPost : List Op := [Op.verify "99" "T" "2021-01-03"]

def demoUsedRow : Referral :=
  { sponsor_id := "7", token := "T", user_id := some "42", status := "used",
    created_at := "2021-01-01", updated_at := "2021-01-02" }

/-- Witness for C4: grant token T for sponsor 7, redeem it as user 42,
then attempt a second redemption as 99; the redeemed row survives the
whole trace unchanged. -/
theorem referral_state_machine_witness :
    freshTokens emptyDB (demoOpsPre ++ demoOpsPost) = true ∧
    demoUsedRow ∈ (run emptyDB (demoOpsPre ++ demoOpsPost)).referrals :=
  ⟨by decide,
   (referral_state_machine demoOpsPre demoOpsPost (by decide)).2.1
     demoUsedRow (by decide) (by decide)⟩
